import Mathlib

/-!
Verification of the AI Resume Analyser document-extraction and matching
pipeline.  The TypeScript sources are shallowly embedded here:

* `src/backend/src/utils/helpers.ts` — `calculateMatchScore`, `cosineSimilarity`
* `src/backend/src/services/jobProgress.service.ts` — stage table,
  `calculateOverallProgress`, `updateStage`, `markFailed`, `markCompleted`
* `src/backend/src/services/pdfExtraction.service.ts` —
  `cleanExtractedText`, `assessExtractionQuality`, `extractText`
* `src/backend/src/services/matching.service.ts` — skill-match scoring
* embedding service — `getActiveProvider`, `retryWithBackoff`,
  `generateEmbedding`
* skill-gap service — `getAggregatedRecommendations`

JavaScript numbers are modelled as exact rationals (`ℚ`); `Math.round`
is modelled as `⌊x + 1/2⌋`, which is its behaviour on JS numbers
(ties round toward +∞).  External effects (file system, PDF parser, OCR,
network providers, the Redis cache) are passed in as explicit oracle
arguments or explicit stores.
-/

/-- JS `Math.round` on exact rationals: round half toward +∞. -/
def jsRound (q : ℚ) : ℤ := ⌊q + 1/2⌋

/-- Embeds `calculateMatchScore` from `utils/helpers.ts` (lines 115-135):
`Math.round(skill*0.40 + experience*0.25 + education*0.15 + keyword*0.20)`. -/
def calculateMatchScore (skillMatch experienceMatch educationMatch keywordMatch : ℚ) : ℤ :=
  jsRound (skillMatch * (40/100) + experienceMatch * (25/100) +
           educationMatch * (15/100) + keywordMatch * (20/100))

lemma jsRound_nonneg {q : ℚ} (h : 0 ≤ q) : 0 ≤ jsRound q := by
  unfold jsRound
  have : (0:ℤ) = ⌊(0:ℚ)⌋ := by norm_num
  rw [this]
  exact Int.floor_le_floor (by linarith)

lemma jsRound_le_hundred {q : ℚ} (h : q ≤ 100) : jsRound q ≤ 100 := by
  unfold jsRound
  have h2 : ⌊q + 1/2⌋ ≤ ⌊(100:ℚ) + 1/2⌋ := Int.floor_le_floor (by linarith)
  have h3 : ⌊(100:ℚ) + 1/2⌋ = 100 := by norm_num
  omega

/-- C1: `calculateMatchScore(skill, experience, education, keyword)` returns the
weighted sum `0.40*skill + 0.25*experience + 0.15*education + 0.20*keyword`
rounded to the nearest integer, which for component inputs in [0,100] coincides
with the clamped-to-[0,100] value; in particular
`calculateMatchScore(80,70,60,90) = 77`, `calculateMatchScore(0,0,0,0) = 0`,
and `calculateMatchScore(100,100,100,100) = 100`. -/
theorem calculateMatchScore_weighted_clamped :
    (∀ s e ed k : ℚ, 0 ≤ s → s ≤ 100 → 0 ≤ e → e ≤ 100 →
      0 ≤ ed → ed ≤ 100 → 0 ≤ k → k ≤ 100 →
      calculateMatchScore s e ed k =
        min 100 (max 0 (jsRound ((40/100) * s + (25/100) * e + (15/100) * ed + (20/100) * k)))) ∧
    calculateMatchScore 80 70 60 90 = 77 ∧
    calculateMatchScore 0 0 0 0 = 0 ∧
    calculateMatchScore 100 100 100 100 = 100 := by
  refine ⟨?_, by norm_num [calculateMatchScore, jsRound],
    by norm_num [calculateMatchScore, jsRound], by norm_num [calculateMatchScore, jsRound]⟩
  intro s e ed k hs0 hs1 he0 he1 hed0 hed1 hk0 hk1
  have hsum0 : 0 ≤ (40/100) * s + (25/100) * e + (15/100) * ed + (20/100) * k := by linarith
  have hsum1 : (40/100) * s + (25/100) * e + (15/100) * ed + (20/100) * k ≤ 100 := by linarith
  have h0 := jsRound_nonneg hsum0
  have h1 := jsRound_le_hundred hsum1
  have hcomm : calculateMatchScore s e ed k =
      jsRound ((40/100) * s + (25/100) * e + (15/100) * ed + (20/100) * k) := by
    unfold calculateMatchScore
    ring_nf
  omega

/-- Witness for C1: instantiates the general statement at (80,70,60,90). -/
theorem calculateMatchScore_weighted_clamped_witness :
    calculateMatchScore 80 70 60 90 =
      min 100 (max 0 (jsRound ((40/100) * 80 + (25/100) * 70 + (15/100) * 60 + (20/100) * 90))) :=
  calculateMatchScore_weighted_clamped.1 80 70 60 90
    (by norm_num) (by norm_num) (by norm_num) (by norm_num)
    (by norm_num) (by norm_num) (by norm_num) (by norm_num)

/-! ## Job progress tracker (`jobProgress.service.ts`) -/

/-- The job processing stages (`JOB_STAGES` keys). -/
inductive JobStage where
  | QUEUED | UPLOADING | EXTRACTING | ANALYZING
  | GENERATING_EMBEDDINGS | MATCHING_JOBS | FINALIZING | COMPLETED | FAILED
  deriving DecidableEq, Repr, Fintype

open JobStage in
/-- `JOB_STAGES[stage].order`. -/
def stageOrder : JobStage → ℤ
  | QUEUED => 0
  | UPLOADING => 1
  | EXTRACTING => 2
  | ANALYZING => 3
  | GENERATING_EMBEDDINGS => 4
  | MATCHING_JOBS => 5
  | FINALIZING => 6
  | COMPLETED => 7
  | FAILED => -1

open JobStage in
/-- `JOB_STAGES[stage].weight`. -/
def stageWeight : JobStage → ℚ
  | QUEUED => 0
  | UPLOADING => 5
  | EXTRACTING => 20
  | ANALYZING => 50
  | GENERATING_EMBEDDINGS => 15
  | MATCHING_JOBS => 8
  | FINALIZING => 2
  | COMPLETED => 0
  | FAILED => 0

open JobStage in
/-- `JOB_STAGES[stage].description`. -/
def stageDescription : JobStage → String
  | QUEUED => "Waiting in queue"
  | UPLOADING => "Uploading file"
  | EXTRACTING => "Extracting text from PDF"
  | ANALYZING => "AI analyzing resume content"
  | GENERATING_EMBEDDINGS => "Generating semantic embeddings"
  | MATCHING_JOBS => "Finding matching job opportunities"
  | FINALIZING => "Saving analysis results"
  | COMPLETED => "Analysis complete"
  | FAILED => "Processing failed"

open JobStage in
/-- `Object.entries(JOB_STAGES)` in insertion order. -/
def allJobStages : List JobStage :=
  [QUEUED, UPLOADING, EXTRACTING, ANALYZING, GENERATING_EMBEDDINGS,
   MATCHING_JOBS, FINALIZING, COMPLETED, FAILED]

/-- Embeds `calculateOverallProgress` (jobProgress.service.ts lines 52-70). -/
def calculateOverallProgress (stage : JobStage) (stageProgress : ℚ) : ℤ :=
  if stage = JobStage.COMPLETED then 100
  else if stage = JobStage.FAILED then 0
  else
    let baseProgress : ℚ :=
      ((allJobStages.filter (fun t => stageOrder t < stageOrder stage)).map stageWeight).sum
    let stageContribution : ℚ := (stageProgress / 100) * stageWeight stage
    min 99 (jsRound (baseProgress + stageContribution))

open JobStage in
/-- The pipeline stages in forward order (the spec's "pipeline order"). -/
def pipelineStages : List JobStage :=
  [QUEUED, UPLOADING, EXTRACTING, ANALYZING, GENERATING_EMBEDDINGS,
   MATCHING_JOBS, FINALIZING, COMPLETED]

/-- Spec-side reading: the sum of the weights of the stages strictly earlier
than `s` in the pipeline order. -/
def earlierStageWeightSum (s : JobStage) : ℚ :=
  ((pipelineStages.takeWhile (fun t => t ≠ s)).map stageWeight).sum

/-- C3: for every non-terminal stage and local stage percent in [0,100], the
overall progress percent is the sum of the weights of all earlier stages plus
(local percent / 100) times the current stage's weight, rounded and capped at
99; for COMPLETED it is exactly 100 and for FAILED exactly 0 regardless of the
local percent. -/
theorem calculateOverallProgress_spec :
    (∀ s : JobStage, s ≠ JobStage.COMPLETED → s ≠ JobStage.FAILED →
      ∀ p : ℚ, 0 ≤ p → p ≤ 100 →
        calculateOverallProgress s p =
          min 99 (jsRound (earlierStageWeightSum s + (p / 100) * stageWeight s))) ∧
    (∀ p : ℚ, calculateOverallProgress JobStage.COMPLETED p = 100) ∧
    (∀ p : ℚ, calculateOverallProgress JobStage.FAILED p = 0) := by
  refine ⟨?_, fun p => rfl, fun p => rfl⟩
  intro s hc hf p _ _
  cases s <;> simp_all [calculateOverallProgress, earlierStageWeightSum,
    allJobStages, pipelineStages, stageOrder, stageWeight]

/-- Witness for C3: the general statement at stage EXTRACTING with local
percent 50. -/
theorem calculateOverallProgress_spec_witness :
    calculateOverallProgress JobStage.EXTRACTING 50 =
      min 99 (jsRound (earlierStageWeightSum JobStage.EXTRACTING +
        ((50 : ℚ) / 100) * stageWeight JobStage.EXTRACTING)) :=
  calculateOverallProgress_spec.1 JobStage.EXTRACTING (by decide) (by decide)
    50 (by norm_num) (by norm_num)

/-- The stored `JobProgress` record. Timestamps and free-form metadata are
elided: no claim refers to them and they do not feed back into the logic. -/
structure JobProgressRecord where
  jobId : String
  resumeId : String
  stage : JobStage
  progress : ℤ
  stageProgress : ℚ
  message : String
  error : Option String := none
  deriving DecidableEq, Repr

/-- The Redis progress keyspace (`job:progress:<jobId>`), modelled as an
association list keyed by jobId.  The `resume:job:` reverse index is elided:
no claim reads it. -/
def ProgressStore := List (String × JobProgressRecord)

instance : DecidableEq ProgressStore := by
  unfold ProgressStore
  infer_instance

/-- Redis `SET key value`: overwrite the entry for the key, else create it. -/
def storeSet (store : ProgressStore) (k : String) (v : JobProgressRecord) : ProgressStore :=
  match store with
  | [] => [(k, v)]
  | (k', v') :: rest =>
      if k' = k then (k, v) :: rest else (k', v') :: storeSet rest k v

/-- Embeds `getProgress` (jobProgress.service.ts lines 192-204). -/
def getProgress (store : ProgressStore) (jobId : String) : Option JobProgressRecord :=
  match store with
  | [] => none
  | (k, v) :: rest => if k = jobId then some v else getProgress rest jobId

/-- Embeds `saveProgress` (lines 221-227): the record is stored under its own
`jobId` field. -/
def saveProgress (store : ProgressStore) (p : JobProgressRecord) : ProgressStore :=
  storeSet store p.jobId p

/-- Embeds `updateStage` (lines 97-133): returns the value the call resolves
with together with the resulting store. -/
def updateStage (store : ProgressStore) (jobId : String) (stage : JobStage)
    (stageProgress : ℚ) : Option JobProgressRecord × ProgressStore :=
  match getProgress store jobId with
  | none => (none, store)
  | some existing =>
      let overallProgress := calculateOverallProgress stage stageProgress
      let updated : JobProgressRecord :=
        { existing with
            stage := stage
            progress := overallProgress
            stageProgress := stageProgress
            message := stageDescription stage }
      (some updated, saveProgress store updated)

/-- Embeds `markFailed` (lines 163-180). -/
def markFailed (store : ProgressStore) (jobId : String) (error : String) :
    Option JobProgressRecord × ProgressStore :=
  match getProgress store jobId with
  | none => (none, store)
  | some existing =>
      let updated : JobProgressRecord :=
        { existing with
            stage := JobStage.FAILED
            progress := 0
            message := "Processing failed"
            error := some error }
      (some updated, saveProgress store updated)

/-- Embeds `markCompleted` (lines 185-187). -/
def markCompleted (store : ProgressStore) (jobId : String) :
    Option JobProgressRecord × ProgressStore :=
  updateStage store jobId JobStage.COMPLETED 100

/-- C8: when no progress record is stored for the jobId, `updateStage`,
`markFailed` and `markCompleted` all return null and leave the store
unchanged instead of raising. -/
theorem missing_record_is_noop :
    ∀ (store : ProgressStore) (jobId : String) (stage : JobStage)
      (p : ℚ) (err : String), getProgress store jobId = none →
      updateStage store jobId stage p = (none, store) ∧
      markFailed store jobId err = (none, store) ∧
      markCompleted store jobId = (none, store) := by
  intro store jobId stage p err h
  refine ⟨?_, ?_, ?_⟩ <;> simp [updateStage, markFailed, markCompleted, h]

/-- Witness for C8: the empty store holds no record for job "job-1". -/
theorem missing_record_is_noop_witness :
    updateStage [] "job-1" JobStage.EXTRACTING 40 = (none, []) ∧
    markFailed [] "job-1" "boom" = (none, []) ∧
    markCompleted [] "job-1" = (none, []) :=
  missing_record_is_noop [] "job-1" JobStage.EXTRACTING 40 "boom" rfl

lemma jsRound_mono {a b : ℚ} (h : a ≤ b) : jsRound a ≤ jsRound b :=
  Int.floor_le_floor (by linarith)

lemma stageWeight_nonneg (s : JobStage) : 0 ≤ stageWeight s := by
  cases s <;> norm_num [stageWeight]

lemma calculateOverallProgress_mono (s : JobStage) {p₁ p₂ : ℚ} (h : p₁ ≤ p₂) :
    calculateOverallProgress s p₁ ≤ calculateOverallProgress s p₂ := by
  by_cases hC : s = JobStage.COMPLETED
  · simp [calculateOverallProgress, hC]
  by_cases hF : s = JobStage.FAILED
  · simp [calculateOverallProgress, hC, hF]
  · simp only [calculateOverallProgress, hC, hF, if_false]
    refine min_le_min le_rfl (jsRound_mono ?_)
    have hw := stageWeight_nonneg s
    gcongr

lemma stage_step_le :
    ∀ s₁ s₂ : JobStage, stageOrder s₁ < stageOrder s₂ →
      calculateOverallProgress s₁ 100 ≤ calculateOverallProgress s₂ 0 := by
  intro s₁ s₂ h
  cases s₁ <;> cases s₂ <;>
    simp_all [calculateOverallProgress, allJobStages, stageOrder, stageWeight, jsRound] <;>
    norm_num

lemma calc_pair_le {s₁ s₂ : JobStage} {p₁ p₂ : ℚ}
    (hord : stageOrder s₁ < stageOrder s₂)
    (hp₁ : p₁ ≤ 100) (hp₂ : 0 ≤ p₂) :
    calculateOverallProgress s₁ p₁ ≤ calculateOverallProgress s₂ p₂ :=
  le_trans (calculateOverallProgress_mono s₁ hp₁)
    (le_trans (stage_step_le s₁ s₂ hord) (calculateOverallProgress_mono s₂ hp₂))

/-- The sequence of `progress` values stored by a sequence of sequential
`updateStage` calls for one job (each call's written value; a call that finds
no record writes nothing). -/
def advanceTrace (store : ProgressStore) (jobId : String) :
    List (JobStage × ℚ) → List ℤ
  | [] => []
  | u :: rest =>
      match updateStage store jobId u.1 u.2 with
      | (some written, store') => written.progress :: advanceTrace store' jobId rest
      | (none, store') => advanceTrace store' jobId rest

lemma getProgress_storeSet_isSome (store : ProgressStore) (jobId k : String)
    (v : JobProgressRecord) (h : (getProgress store jobId).isSome) :
    (getProgress (storeSet store k v) jobId).isSome := by
  induction store with
  | nil => simp [getProgress] at h
  | cons hd tl ih =>
      obtain ⟨k', v'⟩ := hd
      by_cases hk : k' = k
      · by_cases hj : k = jobId
        · simp [storeSet, getProgress, hk, hj]
        · simp only [getProgress, storeSet, hk, if_true, if_neg hj]
          simp only [getProgress, hk, if_neg hj] at h
          exact h
      · by_cases hj : k' = jobId
        · subst hj
          simp [storeSet, getProgress, hk]
        · simp only [storeSet, if_neg hk, getProgress, if_neg hj]
          simp only [getProgress, if_neg hj] at h
          exact ih h

lemma advanceTrace_eq_map (jobId : String) (us : List (JobStage × ℚ)) :
    ∀ store : ProgressStore, (getProgress store jobId).isSome →
      advanceTrace store jobId us =
        us.map (fun u => calculateOverallProgress u.1 u.2) := by
  induction us with
  | nil => intro store _; rfl
  | cons u rest ih =>
      intro store h
      obtain ⟨r, hr⟩ := Option.isSome_iff_exists.mp h
      simp only [advanceTrace, updateStage, hr, List.map_cons]
      congr 1
      exact ih _ (getProgress_storeSet_isSome store jobId _ _ h)

lemma chain_map_calc (us : List (JobStage × ℚ))
    (hchain : List.Chain' (fun a b : JobStage × ℚ => stageOrder a.1 < stageOrder b.1) us)
    (hp : ∀ u ∈ us, 0 ≤ u.2 ∧ u.2 ≤ 100) :
    List.Chain' (· ≤ ·) (us.map (fun u => calculateOverallProgress u.1 u.2)) := by
  induction us with
  | nil => simp
  | cons u rest ih =>
      cases rest with
      | nil => simp
      | cons v rest' =>
          rw [List.chain'_cons] at hchain
          simp only [List.map_cons, List.chain'_cons]
          constructor
          · exact calc_pair_le hchain.1 (hp u (by simp)).2 (hp v (by simp)).1
          · have := ih hchain.2 (fun w hw => hp w (List.mem_cons_of_mem u hw))
            simpa using this

/-- C7: across a sequence of sequential `updateStage` calls on one job whose
stages advance strictly forward in pipeline order (with every local stage
percent in [0,100]), the stored overall progress percent is monotonically
non-decreasing, provided a progress record exists for the job. -/
theorem advance_progress_monotone :
    ∀ (store : ProgressStore) (jobId : String) (us : List (JobStage × ℚ))
      (r₀ : JobProgressRecord),
      getProgress store jobId = some r₀ →
      List.Chain' (fun a b : JobStage × ℚ => stageOrder a.1 < stageOrder b.1) us →
      (∀ u ∈ us, 0 ≤ u.2 ∧ u.2 ≤ 100) →
      List.Chain' (· ≤ ·) (advanceTrace store jobId us) := by
  intro store jobId us r₀ h0 hchain hp
  rw [advanceTrace_eq_map jobId us store (by simp [h0])]
  exact chain_map_calc us hchain hp

/-- Witness for C7: a concrete store with one record and a forward
EXTRACTING → ANALYZING → COMPLETED run. -/
theorem advance_progress_monotone_witness :
    List.Chain' (· ≤ ·)
      (advanceTrace
        [("job-1", { jobId := "job-1", resumeId := "res-1", stage := JobStage.QUEUED,
                     progress := 0, stageProgress := 0, message := "Waiting in queue" })]
        "job-1"
        [(JobStage.EXTRACTING, 30), (JobStage.ANALYZING, 80), (JobStage.COMPLETED, 100)]) :=
  advance_progress_monotone _ "job-1" _
    { jobId := "job-1", resumeId := "res-1", stage := JobStage.QUEUED,
      progress := 0, stageProgress := 0, message := "Waiting in queue" }
    rfl
    (by constructor
        · decide
        · constructor
          · decide
          · constructor)
    (by intro u hu
        simp only [List.mem_cons, List.not_mem_nil, or_false] at hu
        rcases hu with h | h | h <;> subst h <;> norm_num)

/-! ## Matching engine skill score (`matching.service.ts`) -/

/-- JS `a.includes(b)`: `b` occurs as a contiguous substring of `a`. -/
def jsIncludes (a b : String) : Bool := decide (b.data <:+: a.data)

/-- Embeds the skill-match portion of `calculateMatch`
(matching.service.ts lines 54-70) as a function of the profile's skill list
and the job's required skill list. -/
def skillMatchScoreOf (resumeSkillsRaw requiredSkillsRaw : List String) : ℚ :=
  let resumeSkills := resumeSkillsRaw.map String.toLower
  let requiredSkills := requiredSkillsRaw.map String.toLower
  let matchedRequired := requiredSkills.filter
    (fun s => resumeSkills.any (fun rs => jsIncludes rs s || jsIncludes s rs))
  if requiredSkills.length > 0 then
    ((matchedRequired.length : ℚ) / (requiredSkills.length : ℚ)) * 100
  else 50

/-- Spec-side count: required skills that match some profile skill by
case-insensitive substring containment in either direction. -/
def specSkillMatchCount (profileSkills requiredSkills : List String) : ℕ :=
  requiredSkills.countP (fun req => profileSkills.any
    (fun rs => decide ((String.toLower req).data <:+: (String.toLower rs).data) ||
               decide ((String.toLower rs).data <:+: (String.toLower req).data)))

/-- C5: the skill match score equals (number of required skills matching some
profile skill, by case-insensitive substring containment in either direction)
divided by the number of required skills, times 100; with zero required skills
it is exactly 50. -/
theorem skillMatchScore_spec :
    (∀ profileSkills requiredSkills : List String, requiredSkills ≠ [] →
      skillMatchScoreOf profileSkills requiredSkills =
        ((specSkillMatchCount profileSkills requiredSkills : ℚ) /
          (requiredSkills.length : ℚ)) * 100) ∧
    (∀ profileSkills : List String, skillMatchScoreOf profileSkills [] = 50) := by
  constructor
  · intro profileSkills requiredSkills hne
    have hpos : 0 < requiredSkills.length := List.length_pos.mpr hne
    have hpred :
        ((fun s => (profileSkills.map String.toLower).any
            (fun rs => jsIncludes rs s || jsIncludes s rs)) ∘ String.toLower) =
          (fun req => profileSkills.any
            (fun rs => decide ((String.toLower req).data <:+: (String.toLower rs).data) ||
                       decide ((String.toLower rs).data <:+: (String.toLower req).data))) := by
      funext req
      simp only [Function.comp_def, List.any_map, jsIncludes]
    have hcount :
        ((requiredSkills.map String.toLower).filter
          (fun s => (profileSkills.map String.toLower).any
            (fun rs => jsIncludes rs s || jsIncludes s rs))).length
          = specSkillMatchCount profileSkills requiredSkills := by
      rw [← List.countP_eq_length_filter, List.countP_map, hpred, specSkillMatchCount]
    simp only [skillMatchScoreOf]
    rw [if_pos (by simpa using hpos), hcount]
    simp
  · intro profileSkills
    simp [skillMatchScoreOf]

/-- Witness for C5: one profile skill "python", required skills
["Python", "Go"]. -/
theorem skillMatchScore_spec_witness :
    skillMatchScoreOf ["python"] ["Python", "Go"] =
      ((specSkillMatchCount ["python"] ["Python", "Go"] : ℚ) /
        (((["Python", "Go"] : List String)).length : ℚ)) * 100 :=
  skillMatchScore_spec.1 ["python"] ["Python", "Go"] (List.cons_ne_nil _ _)

/-! ## Skill-gap aggregator (skillGap service) -/

/-- One entry of a gap record's `missingSkills` array (schema from the
structured analyzer: skill, importance in high/medium/low, description). -/
structure MissingSkillEntry where
  skill : String
  importance : String
  description : String := ""
  deriving DecidableEq, Repr

/-- One entry of `courseRecommendations`. -/
structure CourseRecommendation where
  skill : String
  courseName : String
  provider : String
  deriving DecidableEq, Repr

/-- A stored skill-gap record, restricted to the fields the aggregation
reads. -/
structure SkillGapRecord where
  missingSkills : List MissingSkillEntry
  courseRecommendations : List CourseRecommendation
  resumeImprovements : List String
  deriving DecidableEq, Repr

structure AggregatedRecommendations where
  topMissingSkills : List String
  recommendedCourses : List CourseRecommendation
  resumeImprovements : List String
  deriving DecidableEq, Repr

/-- JS `Map.get(k) ?? 0` over an insertion-ordered association list. -/
def mapGetD (m : List (String × ℤ)) (k : String) : ℤ :=
  match m with
  | [] => 0
  | (k', v) :: rest => if k' = k then v else mapGetD rest k

/-- JS `Map.set(k, v)`: overwrite in place, else append (insertion order). -/
def mapSet (m : List (String × ℤ)) (k : String) (v : ℤ) : List (String × ℤ) :=
  match m with
  | [] => [(k, v)]
  | (k', v') :: rest => if k' = k then (k, v) :: rest else (k', v') :: mapSet rest k v

/-- Embeds `getAggregatedRecommendations` (skillGap.service.ts lines 125-171)
as a pure function of the subject's stored gap records. -/
def getAggregatedRecommendations (skillGaps : List SkillGapRecord) :
    AggregatedRecommendations :=
  if skillGaps.length = 0 then
    { topMissingSkills := [], recommendedCourses := [], resumeImprovements := [] }
  else
    let skillCounts : List (String × ℤ) := skillGaps.foldl (fun m sg =>
      sg.missingSkills.foldl (fun m s =>
        mapSet m s.skill (mapGetD m s.skill +
          (if s.importance = "high" then 3 else if s.importance = "medium" then 2 else 1))) m) []
    let topMissingSkills :=
      ((skillCounts.mergeSort (fun a b => decide (b.2 ≤ a.2))).take 10).map Prod.fst
    let allCourses := skillGaps.foldr (fun sg acc => sg.courseRecommendations ++ acc) []
    let uniqueCourses := (allCourses.foldl (fun acc c =>
        if acc.any (fun c2 => c2.courseName == c.courseName) then acc else acc ++ [c]) []).take 10
    let allImprovements := skillGaps.foldr (fun sg acc => sg.resumeImprovements ++ acc) []
    let uniqueImprovements := (allImprovements.foldl (fun acc s =>
        if acc.any (fun s2 => s2 == s) then acc else acc ++ [s]) []).take 10
    { topMissingSkills := topMissingSkills
      recommendedCourses := uniqueCourses
      resumeImprovements := uniqueImprovements }

/-- C9: aggregation over zero stored gap records returns empty lists for all
three fields (and, being a total function of the records, never throws). -/
theorem aggregation_empty_gaps :
    getAggregatedRecommendations [] =
      { topMissingSkills := [], recommendedCourses := [], resumeImprovements := [] } := rfl

/-! ## Embedding provider selection (embedding service) -/

inductive EmbeddingProvider where
  | voyage | openai | localModel
  deriving DecidableEq, Repr

/-- The embedding-related configuration: the two optional API keys.  JS
truthiness: `undefined` and the empty string are falsy. -/
structure EmbeddingConfig where
  voyageApiKey : Option String := none
  openaiApiKey : Option String := none
  deriving DecidableEq, Repr

def jsTruthyKey : Option String → Bool
  | none => false
  | some s => s ≠ ""

/-- Embeds `getActiveProvider` (embedding service lines 113-121). -/
def getActiveProvider (cfg : EmbeddingConfig) : EmbeddingProvider :=
  if jsTruthyKey cfg.voyageApiKey then EmbeddingProvider.voyage
  else if jsTruthyKey cfg.openaiApiKey then EmbeddingProvider.openai
  else EmbeddingProvider.localModel

/-- Embeds `retryWithBackoff` (`utils/helpers.ts` lines 60-81): try `fn` up to
`maxRetries` times, returning the first success, else the last error.  The
outcome of the wrapped call on each attempt is the oracle `fn attempt`;
the backoff sleeps have no observable effect on the result. -/
def retryWithBackoff {V : Type} (fn : Nat → Except String V) (maxRetries : Nat) :
    Except String V :=
  go fn 0 maxRetries none
where
  go (fn : Nat → Except String V) (attempt remaining : Nat) (lastError : Option String) :
      Except String V :=
    match remaining with
    | 0 => Except.error (lastError.getD "undefined")
    | remaining' + 1 =>
        match fn attempt with
        | Except.ok v => Except.ok v
        | Except.error e => go fn (attempt + 1) remaining' (some e)

/-- The oracle of the provider `getActiveProvider` selects. -/
def activeProviderOracle (cfg : EmbeddingConfig)
    (voyageFn openaiFn localFn : Nat → Except String (List ℚ)) :
    Nat → Except String (List ℚ) :=
  match getActiveProvider cfg with
  | EmbeddingProvider.voyage => voyageFn
  | EmbeddingProvider.openai => openaiFn
  | EmbeddingProvider.localModel => localFn

/-- Embeds `generateEmbedding` (embedding service lines 128-145): the provider
is selected once from configuration, then only that provider is called, inside
`retryWithBackoff(fn, 3)`.  Each provider is modelled as an oracle from the
attempt number to its outcome on that attempt. -/
def generateEmbedding (cfg : EmbeddingConfig)
    (voyageFn openaiFn localFn : Nat → Except String (List ℚ)) :
    Except String (List ℚ) :=
  retryWithBackoff
    (fun attempt =>
      match getActiveProvider cfg with
      | EmbeddingProvider.voyage => voyageFn attempt
      | EmbeddingProvider.openai => openaiFn attempt
      | EmbeddingProvider.localModel => localFn attempt)
    3

/-- C6 counterexample: with a Voyage key configured, Voyage failing on every
attempt, and the local fallback able to produce a vector, `generateEmbedding`
still raises — so "fails only if no provider can produce a vector" is false
on the code. -/
theorem generateEmbedding_no_fallback_counterexample :
    generateEmbedding { voyageApiKey := some "vk", openaiApiKey := none }
        (fun _ => Except.error "Voyage AI error: 500")
        (fun _ => Except.ok [0])
        (fun _ => Except.ok [1, 2]) =
      Except.error "Voyage AI error: 500" ∧
    (fun _ => Except.ok [1, 2] : Nat → Except String (List ℚ)) 0 = Except.ok [1, 2] := by
  constructor
  · rfl
  · rfl

lemma retryWithBackoff_go_error_iff {V : Type} (fn : Nat → Except String V) :
    ∀ (remaining attempt : Nat) (lastError : Option String),
      (∃ e, retryWithBackoff.go fn attempt remaining lastError = Except.error e) ↔
      (∀ i < remaining, ∃ e, fn (attempt + i) = Except.error e) := by
  intro remaining
  induction remaining with
  | zero => intro attempt lastError; simp [retryWithBackoff.go]
  | succ r ih =>
      intro attempt lastError
      match hfn : fn attempt with
      | Except.ok v =>
          simp only [retryWithBackoff.go, hfn]
          constructor
          · rintro ⟨e, he⟩; cases he
          · intro h
            obtain ⟨e, he⟩ := h 0 (Nat.succ_pos r)
            rw [Nat.add_zero] at he
            rw [hfn] at he
            cases he
      | Except.error e0 =>
        simp only [retryWithBackoff.go, hfn]
        rw [ih (attempt + 1) (some _)]
        constructor
        · intro h i hi
          match i with
          | 0 => exact ⟨_, by simpa using hfn⟩
          | j + 1 =>
              have := h j (by omega)
              simpa [Nat.add_assoc, Nat.add_comm 1 j] using this
        · intro h i hi
          have := h (i + 1) (by omega)
          simpa [Nat.add_assoc, Nat.add_comm 1 i] using this

/-- C6 amended: `generateEmbedding` consults only the single active provider
chosen from configuration (voyage if its key is truthy, else openai if its key
is truthy, else the local fallback); it raises if and only if that one
provider fails on all 3 attempts — whether the other providers could produce
a vector is irrelevant. -/
theorem generateEmbedding_single_provider_retry :
    ∀ (cfg : EmbeddingConfig) (voyageFn openaiFn localFn : Nat → Except String (List ℚ)),
      ((∃ e, generateEmbedding cfg voyageFn openaiFn localFn = Except.error e) ↔
        (∀ i < 3, ∃ e, activeProviderOracle cfg voyageFn openaiFn localFn i =
          Except.error e)) ∧
      (∀ altOpenai altLocal : Nat → Except String (List ℚ),
        getActiveProvider cfg = EmbeddingProvider.voyage →
        generateEmbedding cfg voyageFn openaiFn localFn =
          generateEmbedding cfg voyageFn altOpenai altLocal) := by
  intro cfg voyageFn openaiFn localFn
  constructor
  · have h := retryWithBackoff_go_error_iff
      (fun attempt => activeProviderOracle cfg voyageFn openaiFn localFn attempt) 3 0 none
    simp only [Nat.zero_add] at h
    have hfeq : (fun attempt =>
        match getActiveProvider cfg with
        | EmbeddingProvider.voyage => voyageFn attempt
        | EmbeddingProvider.openai => openaiFn attempt
        | EmbeddingProvider.localModel => localFn attempt) =
        activeProviderOracle cfg voyageFn openaiFn localFn := by
      funext attempt
      unfold activeProviderOracle
      cases getActiveProvider cfg <;> rfl
    have heq : generateEmbedding cfg voyageFn openaiFn localFn =
        retryWithBackoff.go
          (fun attempt => activeProviderOracle cfg voyageFn openaiFn localFn attempt) 0 3 none := by
      simp only [generateEmbedding, retryWithBackoff, hfeq]
    rw [heq]
    exact h
  · intro altOpenai altLocal hv
    simp only [generateEmbedding, retryWithBackoff, hv]

/-- Witness for C6 amended: with only the Voyage key set, Voyage succeeding on
attempt 0 means the call succeeds; the statement is applied at a concrete
configuration and concrete oracles. -/
theorem generateEmbedding_single_provider_retry_witness :
    generateEmbedding { voyageApiKey := some "vk", openaiApiKey := none }
        (fun _ => Except.ok [3, 4])
        (fun _ => Except.error "openai down")
        (fun _ => Except.error "local down") =
      generateEmbedding { voyageApiKey := some "vk", openaiApiKey := none }
        (fun _ => Except.ok [3, 4])
        (fun _ => Except.ok [9])
        (fun _ => Except.ok [8]) :=
  ((generateEmbedding_single_provider_retry
      { voyageApiKey := some "vk", openaiApiKey := none }
      (fun _ => Except.ok [3, 4])
      (fun _ => Except.error "openai down")
      (fun _ => Except.error "local down")).2
    (fun _ => Except.ok [9]) (fun _ => Except.ok [8]) (by rfl))

/-! ## PDF extraction service (`pdfExtraction.service.ts`) -/

/-- ASCII apostrophe (U+0027). -/
def aposChar : Char := Char.ofNat 39

lemma dropWhile_length_le {α : Type} (p : α → Bool) (l : List α) :
    (l.dropWhile p).length ≤ l.length := by
  induction l with
  | nil => simp
  | cons a t ih =>
      by_cases h : p a <;> simp [List.dropWhile_cons, h] <;> omega

/-- Scan to just past the first occurrence of `target`, if any. -/
def afterChar (target : Char) : List Char → Option (List Char)
  | [] => none
  | c :: rest => if c = target then some rest else afterChar target rest

lemma afterChar_length {target : Char} :
    ∀ {cs r : List Char}, afterChar target cs = some r → r.length < cs.length := by
  intro cs
  induction cs with
  | nil => intro r h; simp [afterChar] at h
  | cons c rest ih =>
      intro r h
      by_cases hc : c = target
      · simp [afterChar, hc] at h
        simp [← h]
      · simp only [afterChar, if_neg hc] at h
        have := ih h
        simp only [List.length_cons]
        omega

/-- One left-to-right global-`replace` pass: at each position, if `matcher`
matches a non-empty prefix (returning the remainder), emit `replacement` and
continue after the match; else emit the character and advance. -/
def regexReplace (matcher : List Char → Option (List Char))
    (hdec : ∀ cs r, matcher cs = some r → r.length < cs.length)
    (replacement : List Char) : List Char → List Char
  | [] => []
  | c :: rest =>
      match hm : matcher (c :: rest) with
      | some rest' => replacement ++ regexReplace matcher hdec replacement rest'
      | none => c :: regexReplace matcher hdec replacement rest
termination_by cs => cs.length
decreasing_by
  · exact hdec _ _ hm
  · simp

/-- Matcher for a fixed (non-empty) character sequence `p :: ps` at the head
of the input. -/
def seqMatcher (p : Char) (ps : List Char) (cs : List Char) : Option (List Char) :=
  if cs.take (ps.length + 1) = p :: ps then some (cs.drop (ps.length + 1)) else none

lemma seqMatcher_length (p : Char) (ps : List Char) :
    ∀ cs r, seqMatcher p ps cs = some r → r.length < cs.length := by
  intro cs r h
  unfold seqMatcher at h
  split at h
  · next hpre =>
      have hle := congrArg List.length hpre
      simp only [List.length_take, List.length_cons] at hle
      simp only [Option.some.injEq] at h
      subst h
      simp only [List.length_drop]
      omega
  · simp at h

/-- Ordered alternation of two matchers (left alternative first). -/
def altMatcher (m1 m2 : List Char → Option (List Char)) (cs : List Char) :
    Option (List Char) :=
  match m1 cs with
  | some r => some r
  | none => m2 cs

lemma altMatcher_length {m1 m2 : List Char → Option (List Char)}
    (h1 : ∀ cs r, m1 cs = some r → r.length < cs.length)
    (h2 : ∀ cs r, m2 cs = some r → r.length < cs.length) :
    ∀ cs r, altMatcher m1 m2 cs = some r → r.length < cs.length := by
  intro cs r h
  unfold altMatcher at h
  split at h
  · next heq => cases h; exact h1 _ _ heq
  · exact h2 _ _ h

/-- Matcher for `/\\[a-zA-Z]+\{[^}]*\}/` (a LaTeX command with argument). -/
def matchCommandArgs : List Char → Option (List Char)
  | '\\' :: rest =>
      if (rest.takeWhile Char.isAlpha).isEmpty then none
      else
        match rest.dropWhile Char.isAlpha with
        | '\x7b' :: rest2 => afterChar '\x7d' rest2
        | _ => none
  | _ => none

lemma matchCommandArgs_length :
    ∀ cs r, matchCommandArgs cs = some r → r.length < cs.length := by
  intro cs r h
  unfold matchCommandArgs at h
  split at h
  · next rest =>
      split at h
      · simp at h
      · split at h
        · next rest2 heq =>
            have hr := afterChar_length h
            have hd := dropWhile_length_le Char.isAlpha rest
            rw [heq] at hd
            simp only [List.length_cons] at *
            omega
        · simp at h
  · simp at h

/-- Matcher for `/\\[a-zA-Z]+/` (a bare LaTeX command). -/
def matchCommand : List Char → Option (List Char)
  | '\\' :: rest =>
      if (rest.takeWhile Char.isAlpha).isEmpty then none
      else some (rest.dropWhile Char.isAlpha)
  | _ => none

lemma matchCommand_length :
    ∀ cs r, matchCommand cs = some r → r.length < cs.length := by
  intro cs r h
  unfold matchCommand at h
  split at h
  · next rest =>
      split at h
      · simp at h
      · simp only [Option.some.injEq] at h
        subst h
        have := dropWhile_length_le Char.isAlpha rest
        simp only [List.length_cons]
        omega
  · simp at h

/-- Matcher for `/\$[^$]+\$/` (inline math mode). -/
def matchMathMode : List Char → Option (List Char)
  | '$' :: c1 :: rest2 =>
      if c1 = '$' then none else afterChar '$' rest2
  | _ => none

lemma matchMathMode_length :
    ∀ cs r, matchMathMode cs = some r → r.length < cs.length := by
  intro cs r h
  unfold matchMathMode at h
  split at h
  · next c1 rest2 =>
      split at h
      · simp at h
      · have := afterChar_length h
        simp only [List.length_cons]
        omega
  · simp at h

/-- Matcher for `/[ \t]+/`. -/
def matchSpaceTab : List Char → Option (List Char)
  | c :: rest =>
      if c = ' ' ∨ c = '\t' then
        some (rest.dropWhile (fun d => d = ' ' || d = '\t'))
      else none
  | [] => none

lemma matchSpaceTab_length :
    ∀ cs r, matchSpaceTab cs = some r → r.length < cs.length := by
  intro cs r h
  unfold matchSpaceTab at h
  split at h
  · next c rest =>
      split at h
      · simp only [Option.some.injEq] at h
        subst h
        have := dropWhile_length_le (fun d => d = ' ' || d = '\t') rest
        simp only [List.length_cons]
        omega
      · simp at h
  · simp at h

/-- Matcher for `/\n{3,}/`. -/
def matchNewline3 : List Char → Option (List Char)
  | '\n' :: '\n' :: '\n' :: rest => some (rest.dropWhile (fun d => d = '\n'))
  | _ => none

lemma matchNewline3_length :
    ∀ cs r, matchNewline3 cs = some r → r.length < cs.length := by
  intro cs r h
  unfold matchNewline3 at h
  split at h
  · next rest =>
      simp only [Option.some.injEq] at h
      subst h
      have := dropWhile_length_le (fun d => d = '\n') rest
      simp only [List.length_cons]
      omega
  · simp at h

/-- Characters stripped by `/[\x00-\x09\x0B\x0C\x0E-\x1F\x7F]/` (control
characters other than `\n` and `\r`). -/
def isStrippedControl (c : Char) : Bool :=
  (c.toNat ≤ 0x09) || c.toNat == 0x0B || c.toNat == 0x0C ||
  (0x0E ≤ c.toNat && c.toNat ≤ 0x1F) || c.toNat == 0x7F

/-- JS whitespace characters (as used by `String.prototype.trim` and `\s`). -/
def jsWhitespaceChar (c : Char) : Bool :=
  c = ' ' || c = '\t' || c = '\n' || c = '\r' ||
  c.toNat == 0x0B || c.toNat == 0x0C || c.toNat == 0xA0 || c.toNat == 0xFEFF

/-- JS `String.prototype.trim`: strip whitespace from both ends. -/
def jsTrim (cs : List Char) : List Char :=
  ((cs.dropWhile jsWhitespaceChar).reverse.dropWhile jsWhitespaceChar).reverse

/-- Embeds `cleanExtractedText` (pdfExtraction.service.ts lines 74-107): the
replace chain, in source order.  The `â€"` and `â€¢` patterns contain the
two-character sequence `â€` consumed by the preceding alternation, so they can
no longer match by the time they run, but they are kept for fidelity. -/
def cleanExtractedText (text : String) : String :=
  let s1 := regexReplace matchCommandArgs matchCommandArgs_length [] text.data
  let s2 := regexReplace matchCommand matchCommand_length [] s1
  let s3 := regexReplace matchMathMode matchMathMode_length [] s2
  let s4 := s3.filter (fun c => !(c = '\x7b' || c = '\x7d'))
  let s5 := regexReplace (seqMatcher '\r' ['\n']) (seqMatcher_length _ _) ['\n'] s4
  let s6 := s5.map (fun c => if c = '\r' then '\n' else c)
  let s7 := regexReplace matchSpaceTab matchSpaceTab_length [' '] s6
  let s8 := regexReplace matchNewline3 matchNewline3_length ['\n', '\n'] s7
  let s9 := s8.filter (fun c => !isStrippedControl c)
  let s10 := regexReplace (seqMatcher 'â' ['€', '™']) (seqMatcher_length _ _) [aposChar] s9
  let s11 := regexReplace
    (altMatcher (seqMatcher 'â' ['€', 'œ']) (seqMatcher 'â' ['€']))
    (altMatcher_length (seqMatcher_length _ _) (seqMatcher_length _ _)) ['"'] s10
  let s12 := regexReplace (seqMatcher 'â' ['€', '"']) (seqMatcher_length _ _) ['-'] s11
  let s13 := regexReplace (seqMatcher 'â' ['€', '¢']) (seqMatcher_length _ _) ['•'] s12
  let s14 := regexReplace (seqMatcher 'Â' [' ']) (seqMatcher_length _ _) [' '] s13
  let s15 := s14.map (fun c => if c = '‘' ∨ c = '’' then aposChar else c)
  let s16 := s15.map (fun c => if c = '“' ∨ c = '”' then '"' else c)
  let s17 := s16.map (fun c => if c = '–' ∨ c = '—' then '-' else c)
  String.mk (jsTrim s17)

/-- Quality-threshold constants (pdfExtraction.service.ts lines 43-46). -/
def MIN_TEXT_LENGTH : ℕ := 50
def MIN_WORD_COUNT : ℕ := 20
def MAX_GIBBERISH_RATIO : ℚ := 3/10

/-- Characters matched by the gibberish pattern `/[^\x20-\x7E\n\r\t]/`. -/
def isGibberishChar (c : Char) : Bool :=
  !((0x20 ≤ c.toNat && c.toNat ≤ 0x7E) || c = '\n' || c = '\r' || c = '\t')

/-- The maximal non-whitespace runs of a character list (the non-empty pieces
of JS `text.split(/\s+/)`; the split's possible leading empty piece is dropped
here, which is harmless because the caller keeps only pieces longer than 1). -/
def splitRuns : List Char → List Char → List (List Char)
  | [], acc => if acc.isEmpty then [] else [acc.reverse]
  | c :: rest, acc =>
      if jsWhitespaceChar c then
        if acc.isEmpty then splitRuns rest [] else acc.reverse :: splitRuns rest []
      else splitRuns rest (c :: acc)

/-- `text.split(/\s+/).filter(w => w.length > 1).length`. -/
def wordCountOf (text : String) : ℕ :=
  ((splitRuns text.data []).filter (fun w => w.length > 1)).length

/-- Case-insensitive substring test, embedding JS `/pat/i.test(text)` for a
literal pattern. -/
def testCI (text pattern : String) : Bool :=
  decide ((pattern.data.map Char.toLower) <:+: (text.data.map Char.toLower))

/-- The resume-indicator patterns (pdfExtraction.service.ts lines 139-145):
`/experience/i`, `/education/i`, `/skills?/i`, `/work|employment/i`,
`/email|phone|contact/i`. -/
def resumeIndicatorCount (text : String) : ℕ :=
  ([testCI text "experience",
    testCI text "education",
    testCI text "skill",
    testCI text "work" || testCI text "employment",
    testCI text "email" || testCI text "phone" || testCI text "contact"].filter id).length

/-- Embeds `assessExtractionQuality` (pdfExtraction.service.ts lines 113-156):
returns the clamped confidence score and the warnings, in push order. -/
def assessExtractionQuality (text : String) : ℚ × List String :=
  let score1 : ℚ := 1
  let (score2, w2) :=
    if text.length < MIN_TEXT_LENGTH then
      (score1 - 4/10, ["Extracted text is very short"])
    else (score1, [])
  let wordCount := wordCountOf text
  let (score3, w3) :=
    if wordCount < MIN_WORD_COUNT then
      (score2 - 3/10, w2 ++ ["Low word count: " ++ toString wordCount])
    else (score2, w2)
  let gibberishCount := (text.data.filter isGibberishChar).length
  let gibberishRatio : ℚ := (gibberishCount : ℚ) / (max text.length 1 : ℕ)
  let (score4, w4) :=
    if gibberishRatio > MAX_GIBBERISH_RATIO then
      (score3 - 3/10, w3 ++ ["High proportion of unrecognized characters"])
    else (score3, w3)
  let (score5, w5) :=
    if resumeIndicatorCount text < 2 then
      (score4 - 2/10, w4 ++ ["Missing typical resume sections"])
    else (score4, w4)
  (max 0 (min 1 score5), w5)

inductive ExtractionMethod where
  | text | ocr | hybrid
  deriving DecidableEq, Repr

structure ExtractionResult where
  text : String
  method : ExtractionMethod
  confidence : ℚ
  pageCount : ℕ
  warnings : List String
  deriving DecidableEq, Repr

structure ExtractionOptions where
  enableOCR : Bool
  ocrLanguage : String
  maxPages : ℕ
  cleanText : Bool
  deriving DecidableEq, Repr

def DEFAULT_OPTIONS : ExtractionOptions :=
  { enableOCR := true, ocrLanguage := "eng", maxPages := 20, cleanText := true }

/-- `Partial<ExtractionOptions>`: absent fields fall back to the defaults on
spread-merge. -/
structure PartialExtractionOptions where
  enableOCR : Option Bool := none
  ocrLanguage : Option String := none
  maxPages : Option ℕ := none
  cleanText : Option Bool := none
  deriving DecidableEq, Repr

/-- `{ ...DEFAULT_OPTIONS, ...options }`. -/
def mergeOptions (options : PartialExtractionOptions) : ExtractionOptions :=
  { enableOCR := options.enableOCR.getD DEFAULT_OPTIONS.enableOCR
    ocrLanguage := options.ocrLanguage.getD DEFAULT_OPTIONS.ocrLanguage
    maxPages := options.maxPages.getD DEFAULT_OPTIONS.maxPages
    cleanText := options.cleanText.getD DEFAULT_OPTIONS.cleanText }

/-- Embeds `extractText` (pdfExtraction.service.ts lines 270-355).  External
effects are oracles: `directOutcome` is the outcome of `extractTextDirect`
(`none` = it threw, mapped by the catch block to empty text / zero pages);
`ocrOutcome` is the outcome of `extractTextOCR` (`none` = it threw, which
includes OCR dependencies being unavailable). -/
def extractText (fileExists : Bool) (directOutcome : Option (String × ℕ))
    (ocrOutcome : Option (String × ℕ)) (options : PartialExtractionOptions) :
    Except String ExtractionResult :=
  let opts := mergeOptions options
  if !fileExists then Except.error "File not found"
  else
    let directResult : String × ℕ :=
      match directOutcome with
      | some r => r
      | none => ("", 0)
    let cleanedText :=
      if opts.cleanText then cleanExtractedText directResult.1 else directResult.1
    let quality := assessExtractionQuality cleanedText
    let warnings := quality.2
    if quality.1 < 1/2 ∧ opts.enableOCR = true then
      match ocrOutcome with
      | some ocrResult =>
          let ocrCleaned :=
            if opts.cleanText then cleanExtractedText ocrResult.1 else ocrResult.1
          let ocrQuality := assessExtractionQuality ocrCleaned
          if ocrQuality.1 > quality.1 then
            Except.ok { text := ocrCleaned, method := ExtractionMethod.ocr,
                        confidence := ocrQuality.1, pageCount := ocrResult.2,
                        warnings := warnings ++ ["Used OCR for extraction"] }
          else if quality.1 < 7/10 ∧ ocrQuality.1 > 3/10 then
            Except.ok { text := cleanedText ++ "\n\n--- Additional OCR Content ---\n\n" ++ ocrCleaned,
                        method := ExtractionMethod.hybrid,
                        confidence := max quality.1 ocrQuality.1,
                        pageCount := max directResult.2 ocrResult.2,
                        warnings := warnings ++ ["Used hybrid text + OCR extraction"] }
          else
            Except.ok { text := cleanedText, method := ExtractionMethod.text,
                        confidence := quality.1, pageCount := directResult.2,
                        warnings := warnings }
      | none =>
          Except.ok { text := cleanedText, method := ExtractionMethod.text,
                      confidence := quality.1, pageCount := directResult.2,
                      warnings := warnings ++ ["OCR fallback failed"] }
    else
      Except.ok { text := cleanedText, method := ExtractionMethod.text,
                  confidence := quality.1, pageCount := directResult.2,
                  warnings := warnings }

/-- The confidence `extractText` computes for the direct extraction outcome. -/
def directConfidence (directOutcome : Option (String × ℕ))
    (options : PartialExtractionOptions) : ℚ :=
  (assessExtractionQuality
    (if (mergeOptions options).cleanText then
      cleanExtractedText (directOutcome.getD ("", 0)).1
    else (directOutcome.getD ("", 0)).1)).1

/-- The confidence `extractText` computes for an OCR outcome's text. -/
def ocrConfidence (ocrText : String) (options : PartialExtractionOptions) : ℚ :=
  (assessExtractionQuality
    (if (mergeOptions options).cleanText then cleanExtractedText ocrText else ocrText)).1

/-- C2 counterexample: on the empty input text the quality assessment yields
confidence 0.1 (the short-text, low-word-count and missing-indicator penalties
fire, totalling 0.9; the gibberish penalty does not), not confidence 0 as
claimed. -/
theorem assessQuality_empty_confidence_not_zero :
    (assessExtractionQuality "").1 = 1/10 ∧ (assessExtractionQuality "").1 ≠ 0 := by
  have h : (assessExtractionQuality "").1 = 1/10 := by
    simp +decide [assessExtractionQuality]
    norm_num [ MAX_GIBBERISH_RATIO]
  exact ⟨h, by rw [h]; norm_num⟩

/-- C2 amended: for a zero-length input text, `assessExtractionQuality` yields
confidence exactly 0.1 together with three warnings (short text, low word
count, missing resume sections), and does not throw (it is a total
function). -/
theorem assessQuality_empty_spec :
    assessExtractionQuality "" =
      (1/10, ["Extracted text is very short", "Low word count: 0",
              "Missing typical resume sections"]) := by
  have h2 : (assessExtractionQuality "").2 =
      ["Extracted text is very short", "Low word count: 0",
       "Missing typical resume sections"] := by
    simp +decide [assessExtractionQuality]
    norm_num [ MAX_GIBBERISH_RATIO]
    decide
  have h1 : (assessExtractionQuality "").1 = 1/10 := by
    simp +decide [assessExtractionQuality]
    norm_num [ MAX_GIBBERISH_RATIO]
  exact Prod.ext h1 h2

/-- C4: in `extractText`, the OCR fallback is consulted only when the
direct-extraction confidence is below 0.5 and OCR is enabled — otherwise the
result is the direct result with method `text`, identical for any two OCR
oracles (so OCR availability is irrelevant); and when OCR is attempted and its
confidence exceeds the direct confidence, the result has method `ocr` and the
OCR confidence. -/
theorem extractText_ocr_gate :
    (∀ (d o1 o2 : Option (String × ℕ)) (options : PartialExtractionOptions),
      ¬(directConfidence d options < 1/2 ∧ (mergeOptions options).enableOCR = true) →
      extractText true d o1 options = extractText true d o2 options ∧
      ∃ r, extractText true d o1 options = Except.ok r ∧
        r.method = ExtractionMethod.text) ∧
    (∀ (d : Option (String × ℕ)) (ocrText : String) (ocrPages : ℕ)
        (options : PartialExtractionOptions),
      directConfidence d options < 1/2 →
      (mergeOptions options).enableOCR = true →
      ocrConfidence ocrText options > directConfidence d options →
      ∃ r, extractText true d (some (ocrText, ocrPages)) options = Except.ok r ∧
        r.method = ExtractionMethod.ocr ∧
        r.confidence = ocrConfidence ocrText options) := by
  constructor
  · intro d o1 o2 options hno
    simp only [directConfidence] at hno
    cases d with
    | none =>
        simp only [extractText, Option.getD] at hno ⊢
        rw [if_neg hno, if_neg hno]
        exact ⟨rfl, _, rfl, rfl⟩
    | some dr =>
        simp only [extractText, Option.getD] at hno ⊢
        rw [if_neg hno, if_neg hno]
        exact ⟨rfl, _, rfl, rfl⟩
  · intro d ocrText ocrPages options hconf hocr hbetter
    simp only [directConfidence, Option.getD] at hconf hbetter
    simp only [ocrConfidence] at hbetter ⊢
    cases d with
    | none =>
        simp only [extractText]
        rw [if_neg (show ¬((!true) = true) by simp)]
        rw [if_pos ⟨hconf, hocr⟩]
        rw [if_pos hbetter]
        exact ⟨_, rfl, rfl, rfl⟩
    | some dr =>
        simp only [extractText]
        rw [if_neg (show ¬((!true) = true) by simp)]
        rw [if_pos ⟨hconf, hocr⟩]
        rw [if_pos hbetter]
        exact ⟨_, rfl, rfl, rfl⟩

lemma assessQuality_empty_conf_eval : (assessExtractionQuality "").1 = 1/10 := by
  simp +decide [assessExtractionQuality]
  norm_num [ MAX_GIBBERISH_RATIO]

lemma assessQuality_expEduc_conf_eval :
    (assessExtractionQuality "experience education").1 = 3/10 := by
  simp +decide [assessExtractionQuality]
  norm_num [ MAX_GIBBERISH_RATIO]

/-- Witness for C4: with direct text "" (confidence 0.1) and OCR disabled, the
result is independent of the OCR oracle; with OCR enabled and OCR text of
confidence 0.3 > 0.1, the result is the OCR result. -/
theorem extractText_ocr_gate_witness :
    (extractText true (some ("", 0)) (some ("experience education", 1))
        { enableOCR := some false, cleanText := some false } =
      extractText true (some ("", 0)) none
        { enableOCR := some false, cleanText := some false }) ∧
    (∃ r, extractText true (some ("", 0)) (some ("experience education", 1))
        { cleanText := some false } = Except.ok r ∧
      r.method = ExtractionMethod.ocr ∧
      r.confidence = ocrConfidence "experience education" { cleanText := some false }) := by
  constructor
  · exact (extractText_ocr_gate.1 (some ("", 0)) (some ("experience education", 1)) none
      { enableOCR := some false, cleanText := some false }
      (by simp [mergeOptions, DEFAULT_OPTIONS])).1
  · exact extractText_ocr_gate.2 (some ("", 0)) "experience education" 1
      { cleanText := some false }
      (by simp [directConfidence, mergeOptions, DEFAULT_OPTIONS,
            assessQuality_empty_conf_eval]
          norm_num)
      (by simp [mergeOptions, DEFAULT_OPTIONS])
      (by simp [ocrConfidence, directConfidence, mergeOptions, DEFAULT_OPTIONS,
            assessQuality_empty_conf_eval, assessQuality_expEduc_conf_eval]
          norm_num)

/-! ## Cosine similarity and the derived keyword score -/

/-- JS `Math.round` on the real model. -/
noncomputable def jsRoundR (x : ℝ) : ℤ := ⌊x + 1/2⌋

/-- Embeds `cosineSimilarity` (`utils/helpers.ts` lines 12-32) over the reals
(`Math.sqrt` is real square root in the exact model); `Except.error` models
the thrown length-mismatch error.  Noncomputable solely because of
`Real.sqrt`; the zero-magnitude guard is kept in the source's form
`sqrt(normA) * sqrt(normB) === 0`. -/
noncomputable def cosineSimilarity (vecA vecB : List ℝ) : Except String ℝ :=
  if vecA.length ≠ vecB.length then Except.error "Vectors must have the same length"
  else
    let dotProduct := (List.zipWith (fun a b => a * b) vecA vecB).sum
    let normA := (vecA.map (fun x => x * x)).sum
    let normB := (vecB.map (fun x => x * x)).sum
    let magnitude := Real.sqrt normA * Real.sqrt normB
    if magnitude = 0 then Except.ok 0
    else Except.ok (dotProduct / magnitude)

/-- The keyword score derived from a similarity
(matching.service.ts line 88): `Math.round(((sim + 1) / 2) * 100)`. -/
noncomputable def keywordScoreOfSim (sim : ℝ) : ℤ := jsRoundR (((sim + 1) / 2) * 100)

/-- C10: for equal-length vectors where either vector has zero magnitude (zero
sum of squares), `cosineSimilarity` returns 0 instead of dividing by zero, and
the derived keyword score is `round(((0+1)/2)*100) = 50` rather than an
error. -/
theorem cosineSimilarity_zero_magnitude :
    ∀ vecA vecB : List ℝ, vecA.length = vecB.length →
      ((vecA.map (fun x => x * x)).sum = 0 ∨ (vecB.map (fun x => x * x)).sum = 0) →
      cosineSimilarity vecA vecB = Except.ok 0 ∧ keywordScoreOfSim 0 = 50 := by
  intro vecA vecB hlen hzero
  constructor
  · simp only [cosineSimilarity]
    rw [if_neg (by simp [hlen])]
    have hmag : Real.sqrt ((vecA.map (fun x => x * x)).sum) *
        Real.sqrt ((vecB.map (fun x => x * x)).sum) = 0 := by
      rcases hzero with h | h
      · rw [h, Real.sqrt_zero, zero_mul]
      · rw [h, Real.sqrt_zero, mul_zero]
    rw [if_pos hmag]
  · simp only [keywordScoreOfSim, jsRoundR]
    norm_num

/-- Witness for C10: the all-zero vector `[0, 0]` against `[1, 2]`. -/
theorem cosineSimilarity_zero_magnitude_witness :
    cosineSimilarity [0, 0] [1, 2] = Except.ok 0 ∧ keywordScoreOfSim 0 = 50 :=
  cosineSimilarity_zero_magnitude [0, 0] [1, 2] (by simp) (Or.inl (by norm_num))
